import Mathlib

/-!
# Verification of the panda-agents transcript-parsing core

Shallow embedding of the agent-status core of the `panda-agents` VS Code
extension: the per-agent state record (`types.ts`), the Codex line parser
(`src/providers/codexParser.ts`), the Cursor line parser
(`src/providers/cursorParser.ts`), and the registry lifecycle operations
`removeAgent` / `restoreAgents` (`agentManager.ts`).

JavaScript `Map` and `Set` are modelled as association lists / lists that
preserve insertion order, matching the iteration-order semantics the Cursor
parser's oldest-match lookup relies on.  `webview.postMessage` calls are
collected into a list of emissions; a `setTimeout(..., TOOL_DONE_DELAY_MS)`
wrapped post is recorded as a delayed emission.  `timerManager.ts` and
`constants.ts` are not among the provided sources, so the timer helpers and
the display-length constant are modelled from the spec (each such definition
says so in its doc comment); timers are modelled as the set of agent ids for
which the timer is currently armed.
-/

namespace PandaAgents

/-- Status values carried by `agentStatus` events (`'active' | 'waiting'`). -/
inductive Status
  | active
  | waiting
deriving DecidableEq, Repr

/-- The outbound events the parsers and lifecycle code post to the webview
(`agentStatus`, `agentToolStart`, `agentToolDone`, `agentToolsClear`,
`agentToolPermission`). -/
inductive Event
  | agentStatus (status : Status)
  | agentToolStart (toolId : String) (status : String)
  | agentToolDone (toolId : String)
  | agentToolsClear
  | agentToolPermission
deriving DecidableEq, Repr

/-- One `webview.postMessage`: either posted immediately, or scheduled with
`setTimeout(..., TOOL_DONE_DELAY_MS)` (the fixed display delay). -/
inductive Emission
  | now (e : Event)
  | afterDelay (e : Event)
deriving DecidableEq, Repr

/-- JS `Map.prototype.set`: update the value in place when the key exists,
otherwise append, so insertion order is preserved. -/
def mapSet {κ α : Type} [DecidableEq κ] (m : List (κ × α)) (k : κ) (v : α) :
    List (κ × α) :=
  if k ∈ m.map Prod.fst then
    m.map (fun p => if p.1 = k then (k, v) else p)
  else
    m ++ [(k, v)]

/-- JS `Map.prototype.delete`. -/
def mapDelete {κ α : Type} [DecidableEq κ] (m : List (κ × α)) (k : κ) :
    List (κ × α) :=
  m.filter (fun p => p.1 ≠ k)

/-- JS `Map.prototype.get`. -/
def mapGet {κ α : Type} [DecidableEq κ] (m : List (κ × α)) (k : κ) : Option α :=
  (m.find? (fun p => p.1 = k)).map Prod.snd

/-- JS `Set.prototype.add` (no-op when the element is already present, so
insertion order is preserved). -/
def setAdd {α : Type} [DecidableEq α] (s : List α) (x : α) : List α :=
  if x ∈ s then s else s ++ [x]

/-- JS `Set.prototype.delete`. -/
def setDelete {α : Type} [DecidableEq α] (s : List α) (x : α) : List α :=
  s.filter (fun y => y ≠ x)

/-- The per-agent state record (`AgentState` in `types.ts`).  `terminalRef`
is modelled by the terminal's name (the only attribute the core reads),
`none` for terminal-less providers. -/
structure AgentState where
  id : Nat
  provider : String
  terminalRef : Option String
  projectDir : String
  jsonlFile : String
  fileOffset : Nat
  lineBuffer : String
  activeToolIds : List String
  activeToolStatuses : List (String × String)
  activeToolNames : List (String × String)
  activeSubagentToolIds : List (String × List String)
  activeSubagentToolNames : List (String × List (String × String))
  isWaiting : Bool
  permissionSent : Bool
  hadToolsInTurn : Bool
deriving DecidableEq, Repr

/-- The per-agent timer maps of `TranscriptContext` that the parsers touch,
modelled as the sets of agent ids whose timer is currently armed. -/
structure Timers where
  waitingTimers : List Nat
  permissionTimers : List Nat
deriving DecidableEq, Repr

/-- Modelled from the spec: `timerManager.ts` is not among the provided
sources.  `cancelWaitingTimer(agentId, waitingTimers)` clears and removes the
idle timer for the agent; cancelling an unarmed timer is a no-op. -/
def cancelWaitingTimer (agentId : Nat) (waitingTimers : List Nat) : List Nat :=
  setDelete waitingTimers agentId

/-- Modelled from the spec: `timerManager.ts` is not among the provided
sources.  `cancelPermissionTimer(agentId, permissionTimers)` clears and
removes the permission timer for the agent. -/
def cancelPermissionTimer (agentId : Nat) (permissionTimers : List Nat) :
    List Nat :=
  setDelete permissionTimers agentId

/-- Modelled from the spec: `timerManager.ts` is not among the provided
sources.  `startWaitingTimer` (re)arms the idle timer — "any qualifying
activity re-arms (cancels + restarts) the relevant timer".  The delay value
is irrelevant to the armed-set model. -/
def startWaitingTimer (agentId : Nat) (waitingTimers : List Nat) : List Nat :=
  setAdd (cancelWaitingTimer agentId waitingTimers) agentId

/-- Modelled from the spec: `timerManager.ts` is not among the provided
sources.  `startPermissionTimer` (re)arms the permission timer for the
agent. -/
def startPermissionTimer (agentId : Nat) (permissionTimers : List Nat) :
    List Nat :=
  setAdd (cancelPermissionTimer agentId permissionTimers) agentId

/-- Modelled from the spec: `timerManager.ts` is not among the provided
sources.  `clearAgentActivity(agent, agentId, permissionTimers, webview)`
clears all active-tool tracking and emits a tools-cleared event when any
tool was being tracked (mirroring the inline turn-end clearing in
`processCodexLine`), and cancels the permission timer. -/
def clearAgentActivity (agent : AgentState) (agentId : Nat)
    (permissionTimers : List Nat) : AgentState × List Nat × List Emission :=
  let p := cancelPermissionTimer agentId permissionTimers
  if agent.activeToolIds.length > 0 then
    ({ agent with
        activeToolIds := []
        activeToolStatuses := []
        activeToolNames := []
        activeSubagentToolIds := []
        activeSubagentToolNames := [] },
      p, [Emission.now Event.agentToolsClear])
  else
    (agent, p, [])

/-- The fields either parser reads from a parsed JSONL record
(`Record<string, unknown>` after `JSON.parse`); every field is optional. -/
structure Record where
  type : Option String := none
  working_dir : Option String := none
  id : Option String := none
  command : Option String := none
  exec_id : Option String := none
  file_path : Option String := none
  tool_name : Option String := none
deriving DecidableEq, Repr

/-- JS truthiness of a possibly-absent string: `undefined` and the empty
string are falsy. -/
def truthy : Option String → Bool
  | none => false
  | some s => s ≠ ""

/-- `formatCodexToolStatus` (`codexParser.ts`).  `maxLen` stands for
`BASH_COMMAND_DISPLAY_MAX_LENGTH`; `constants.ts` is not among the provided
sources and the spec fixes only that shell commands are "truncated to a
fixed display length with an ellipsis", so the length is kept as a
parameter. -/
def formatCodexToolStatus (maxLen : Nat) (eventType : String)
    (record : Record) : String :=
  if eventType = "ExecCommandBegin" then
    let cmd := record.command.getD ""
    let display :=
      if cmd.length > maxLen then (cmd.take maxLen).push '…' else cmd
    "Running: " ++ display
  else
    "Using " ++ eventType

/-- `processCodexLine` (`src/providers/codexParser.ts`).  The input is the
result of `JSON.parse` on the line: `none` models a line on which
`JSON.parse` throws (the surrounding `try`/`catch` then ignores it).
`freshId` models the `crypto.randomUUID()` value generated for this line
when the record carries no id.  Returns the updated agent state and timer
maps together with the posted emissions, in program order. -/
def processCodexLine (maxLen : Nat) (agentId : Nat) (freshId : String)
    (parsed : Option Record) (agent : AgentState) (timers : Timers) :
    AgentState × Timers × List Emission :=
  match parsed with
  | none => (agent, timers, [])
  | some record =>
    match record.type with
    | none => (agent, timers, [])
    | some eventType =>
      -- `!eventType` is true for undefined and for the empty string; both
      -- early returns (SessionMeta header and typeless record) collapse to
      -- dropping the line.
      if eventType = "" then (agent, timers, [])
      else if eventType = "TurnStarted" then
        let w := cancelWaitingTimer agentId timers.waitingTimers
        let (agent, p, ev) :=
          clearAgentActivity agent agentId timers.permissionTimers
        let agent := { agent with hadToolsInTurn := false }
        (agent, ⟨w, p⟩,
          ev ++ [Emission.now (Event.agentStatus Status.active)])
      else if eventType = "TurnEnded" then
        let w := cancelWaitingTimer agentId timers.waitingTimers
        let p := cancelPermissionTimer agentId timers.permissionTimers
        let (agent, ev) :=
          if agent.activeToolIds.length > 0 then
            ({ agent with
                activeToolIds := []
                activeToolStatuses := []
                activeToolNames := []
                activeSubagentToolIds := []
                activeSubagentToolNames := [] },
              [Emission.now Event.agentToolsClear])
          else (agent, [])
        let agent :=
          { agent with
              isWaiting := true, permissionSent := false,
              hadToolsInTurn := false }
        (agent, ⟨w, p⟩,
          ev ++ [Emission.now (Event.agentStatus Status.waiting)])
      else if eventType = "ExecCommandBegin" then
        let toolId := if truthy record.id then record.id.getD "" else freshId
        let status := formatCodexToolStatus maxLen "ExecCommandBegin" record
        let agent :=
          { agent with
              activeToolIds := setAdd agent.activeToolIds toolId
              activeToolStatuses := mapSet agent.activeToolStatuses toolId status
              activeToolNames := mapSet agent.activeToolNames toolId "shell"
              hadToolsInTurn := true
              isWaiting := false }
        let p := startPermissionTimer agentId timers.permissionTimers
        (agent, ⟨timers.waitingTimers, p⟩,
          [Emission.now (Event.agentStatus Status.active),
           Emission.now (Event.agentToolStart toolId status)])
      else if eventType = "ExecCommandEnd" then
        let (agent, ev) :=
          if truthy record.id = true ∧
              record.id.getD "" ∈ agent.activeToolIds then
            let tid := record.id.getD ""
            ({ agent with
                activeToolIds := setDelete agent.activeToolIds tid
                activeToolStatuses := mapDelete agent.activeToolStatuses tid
                activeToolNames := mapDelete agent.activeToolNames tid },
              [Emission.afterDelay (Event.agentToolDone tid)])
          else (agent, [])
        let agent :=
          if agent.activeToolIds.length = 0 then
            { agent with hadToolsInTurn := false }
          else agent
        (agent, timers, ev)
      else if eventType = "ExecOutputDelta" then
        if truthy record.exec_id = true ∧
            record.exec_id.getD "" ∈ agent.activeToolIds then
          (agent,
            ⟨timers.waitingTimers,
              startPermissionTimer agentId timers.permissionTimers⟩, [])
        else (agent, timers, [])
      else if eventType = "ApprovalRequest" then
        ({ agent with permissionSent := true }, timers,
          [Emission.now Event.agentToolPermission])
      else if eventType = "AgentMessageDelta" then
        if agent.hadToolsInTurn then (agent, timers, [])
        else
          (agent,
            ⟨startWaitingTimer agentId timers.waitingTimers,
              timers.permissionTimers⟩, [])
      else if eventType = "UserMessage" then
        let w := cancelWaitingTimer agentId timers.waitingTimers
        let (agent, p, ev) :=
          clearAgentActivity agent agentId timers.permissionTimers
        let agent := { agent with hadToolsInTurn := false }
        (agent, ⟨w, p⟩, ev)
      else (agent, timers, [])

/-- Split a character list at slashes into path components. -/
def splitSlash : List Char → List (List Char)
  | [] => [[]]
  | c :: rest =>
    match splitSlash rest with
    | seg :: segs => if c = '/' then [] :: seg :: segs else (c :: seg) :: segs
    | [] => [[]]

/-- `path.basename` as the Cursor status formatter uses it: the last
non-empty slash-separated component of the path (`""` when there is
none). -/
def basename (p : String) : String :=
  match ((splitSlash p.data).filter (fun s => s ≠ [])).getLast? with
  | some s => String.mk s
  | none => ""

/-- `formatCursorStatus` (`src/providers/cursorParser.ts`); `maxLen` stands
for `BASH_COMMAND_DISPLAY_MAX_LENGTH` as in `formatCodexToolStatus`. -/
def formatCursorStatus (maxLen : Nat) (event : String) (record : Record) :
    String :=
  if event = "beforeShellExecution" then
    let cmd := record.command.getD ""
    let display :=
      if cmd.length > maxLen then (cmd.take maxLen).push '…' else cmd
    "Running: " ++ display
  else if event = "beforeReadFile" then
    "Reading " ++ basename (record.file_path.getD "")
  else if event = "afterFileEdit" then
    "Editing " ++ basename (record.file_path.getD "")
  else if event = "beforeMCPExecution" then
    "MCP: " ++ (if truthy record.tool_name then record.tool_name.getD ""
                else "tool")
  else
    "Using " ++ event

/-- `processCursorLine` (`src/providers/cursorParser.ts`).  As for Codex,
the input is the parsed record (`none` when `JSON.parse` throws) and
`freshId` models the `generateToolId()` value for this line. -/
def processCursorLine (maxLen : Nat) (agentId : Nat) (freshId : String)
    (parsed : Option Record) (agent : AgentState) (timers : Timers) :
    AgentState × Timers × List Emission :=
  match parsed with
  | none => (agent, timers, [])
  | some record =>
    match record.type with
    | none => (agent, timers, [])
    | some event =>
      -- `if (!event) return;` drops undefined and empty-string types.
      if event = "" then (agent, timers, [])
      else if event = "beforeSubmitPrompt" then
        let w := cancelWaitingTimer agentId timers.waitingTimers
        let (agent, p, ev) :=
          clearAgentActivity agent agentId timers.permissionTimers
        let agent := { agent with hadToolsInTurn := false }
        (agent, ⟨w, p⟩,
          ev ++ [Emission.now (Event.agentStatus Status.active)])
      else if event = "afterAgentResponse" ∨ event = "stop" then
        let w := cancelWaitingTimer agentId timers.waitingTimers
        let p := cancelPermissionTimer agentId timers.permissionTimers
        let (agent, ev) :=
          if agent.activeToolIds.length > 0 then
            ({ agent with
                activeToolIds := []
                activeToolStatuses := []
                activeToolNames := []
                activeSubagentToolIds := []
                activeSubagentToolNames := [] },
              [Emission.now Event.agentToolsClear])
          else (agent, [])
        let agent :=
          { agent with
              isWaiting := true, permissionSent := false,
              hadToolsInTurn := false }
        (agent, ⟨w, p⟩,
          ev ++ [Emission.now (Event.agentStatus Status.waiting)])
      else if event = "beforeShellExecution" ∨ event = "beforeReadFile" ∨
          event = "beforeMCPExecution" then
        let toolId := freshId
        let status := formatCursorStatus maxLen event record
        let toolName :=
          if event = "beforeShellExecution" then "Bash"
          else if event = "beforeReadFile" then "Read"
          else "MCP"
        let agent :=
          { agent with
              activeToolIds := setAdd agent.activeToolIds toolId
              activeToolStatuses := mapSet agent.activeToolStatuses toolId status
              activeToolNames := mapSet agent.activeToolNames toolId toolName
              hadToolsInTurn := true
              isWaiting := false }
        let p := startPermissionTimer agentId timers.permissionTimers
        (agent, ⟨timers.waitingTimers, p⟩,
          [Emission.now (Event.agentStatus Status.active),
           Emission.now (Event.agentToolStart toolId status)])
      else if event = "afterShellExecution" ∨ event = "afterFileEdit" ∨
          event = "afterMCPExecution" then
        -- Tool done — find and clear the matching before-tool by type
        -- (first entry of the insertion-ordered map, i.e. the oldest).
        let matchType :=
          if event = "afterShellExecution" then "Bash"
          else if event = "afterFileEdit" then "Read"
          else "MCP"
        let matched := agent.activeToolNames.find? (fun p => p.2 = matchType)
        let (agent, ev) :=
          match matched with
          | some (matchedToolId, _) =>
            ({ agent with
                activeToolIds := setDelete agent.activeToolIds matchedToolId
                activeToolStatuses :=
                  mapDelete agent.activeToolStatuses matchedToolId
                activeToolNames :=
                  mapDelete agent.activeToolNames matchedToolId },
              [Emission.afterDelay (Event.agentToolDone matchedToolId)])
          | none =>
            if event = "afterFileEdit" then
              -- No matching before-tool — show a brief edit event
              let toolId := freshId
              let status := formatCursorStatus maxLen event record
              ({ agent with hadToolsInTurn := true },
                [Emission.now (Event.agentToolStart toolId status),
                 Emission.afterDelay (Event.agentToolDone toolId)])
            else (agent, [])
        let agent :=
          if agent.activeToolIds.length = 0 then
            { agent with hadToolsInTurn := false }
          else agent
        (agent, timers, ev)
      else (agent, timers, [])

/-- Feed a sequence of parsed Codex lines (each paired with its fresh id)
one at a time, concatenating the posted emissions in order — the way the
registry passes completed lines "one at a time, in file order" to the
parser. -/
def processCodexLines (maxLen : Nat) (agentId : Nat)
    (inputs : List (Option Record × String)) (agent : AgentState)
    (timers : Timers) : AgentState × Timers × List Emission :=
  match inputs with
  | [] => (agent, timers, [])
  | (parsed, freshId) :: rest =>
    let (agent', timers', ev) :=
      processCodexLine maxLen agentId freshId parsed agent timers
    let (agent'', timers'', evs) :=
      processCodexLines maxLen agentId rest agent' timers'
    (agent'', timers'', ev ++ evs)

/-- The per-agent maps owned by the view provider that `removeAgent`
touches (`agents`, `fileWatchers`, `pollingTimers`, `waitingTimers`,
`permissionTimers`, `jsonlPollTimers`); watcher/timer maps are modelled by
the set of agent ids holding a live handle (presence = armed/open). -/
structure Registry where
  agents : List (Nat × AgentState)
  fileWatchers : List Nat
  pollingTimers : List Nat
  waitingTimers : List Nat
  permissionTimers : List Nat
  jsonlPollTimers : List Nat
deriving DecidableEq, Repr

/-- `removeAgent` (`agentManager.ts`): looks the agent up and returns
unchanged when absent; otherwise stops the JSONL poll timer, closes the
file watcher, stops the polling timer, cancels the waiting and permission
timers, and deletes the id from every map.  The trailing `persistAgents()`
callback writes the surviving list to workspace storage and touches no
in-memory state, so it has no counterpart here. -/
def removeAgent (agentId : Nat) (r : Registry) : Registry :=
  match mapGet r.agents agentId with
  | none => r
  | some _ =>
    { agents := mapDelete r.agents agentId
      fileWatchers := setDelete r.fileWatchers agentId
      pollingTimers := setDelete r.pollingTimers agentId
      waitingTimers := cancelWaitingTimer agentId r.waitingTimers
      permissionTimers := cancelPermissionTimer agentId r.permissionTimers
      jsonlPollTimers := setDelete r.jsonlPollTimers agentId }

/-- A persisted snapshot entry (`PersistedAgent` in `types.ts`). -/
structure PersistedAgent where
  id : Nat
  provider : Option String := none
  terminalName : String
  jsonlFile : String
  projectDir : String
deriving DecidableEq, Repr

/-- The `needsTerminal` flag of the three registered providers
(`claudeProvider.ts`, `codexProvider.ts`: `needsTerminal: true`;
`cursorProvider.ts`: `needsTerminal: false`).  `getProvider` throws for any
other id, so only these three occur. -/
def needsTerminal (providerId : String) : Bool :=
  if providerId = "cursor" then false else true

/-- The provider id `restoreAgents` uses for an entry:
`p.provider || PROVIDER_IDS.CLAUDE` (JS `||`, so undefined and the empty
string both fall back to `'claude'`). -/
def persistedProviderId (p : PersistedAgent) : String :=
  if truthy p.provider then p.provider.getD "" else "claude"

/-- The loop body of `restoreAgents` (`agentManager.ts`) for one persisted
entry: skip terminal-needing entries with no live terminal of the persisted
name, otherwise build the `AgentState` literal with every transient field
empty and `fileOffset: 0`, then — when the transcript file exists — fast
forward `fileOffset` to the file's current size.  `live` is the set of live
terminal names, `fsSize path` the current size of the file at `path`
(`none` when it does not exist).  Returns `none` when the entry is
skipped. -/
def rehydrate (live : List String) (fsSize : String → Option Nat)
    (p : PersistedAgent) : Option AgentState :=
  let providerId := persistedProviderId p
  if needsTerminal providerId = true ∧ p.terminalName ∉ live then none
  else
    let agent : AgentState :=
      { id := p.id
        provider := providerId
        terminalRef :=
          if needsTerminal providerId then some p.terminalName else none
        projectDir := p.projectDir
        jsonlFile := p.jsonlFile
        fileOffset := 0
        lineBuffer := ""
        activeToolIds := []
        activeToolStatuses := []
        activeToolNames := []
        activeSubagentToolIds := []
        activeSubagentToolNames := []
        isWaiting := false
        permissionSent := false
        hadToolsInTurn := false }
    match fsSize p.jsonlFile with
    | some size => some { agent with fileOffset := size }
    | none => some agent

/-- The registry state `restoreAgents` builds up: the `agents` map, the
`knownJsonlFiles` set, and the ids given a JSONL poll timer because their
transcript file does not exist yet. -/
structure RestoreResult where
  agents : List (Nat × AgentState)
  knownJsonlFiles : List String
  jsonlPollTimers : List Nat
deriving DecidableEq, Repr

/-- The restore loop of `restoreAgents` (`agentManager.ts`): fold
`rehydrate` over the persisted entries, registering each restored agent
under its persisted id, adding its transcript path to `knownJsonlFiles`,
and arming a poll timer when the transcript file does not exist yet (when
it exists, `startFileWatching` is called instead — file watching is outside
this model). -/
def restoreAgentsGo (live : List String) (fsSize : String → Option Nat) :
    List PersistedAgent → RestoreResult → RestoreResult
  | [], acc => acc
  | p :: rest, acc =>
    match rehydrate live fsSize p with
    | none => restoreAgentsGo live fsSize rest acc
    | some agent =>
      restoreAgentsGo live fsSize rest
        { agents := mapSet acc.agents p.id agent
          knownJsonlFiles := setAdd acc.knownJsonlFiles p.jsonlFile
          jsonlPollTimers :=
            if (fsSize p.jsonlFile).isSome then acc.jsonlPollTimers
            else setAdd acc.jsonlPollTimers p.id }

/-- `restoreAgents` over a persisted snapshot list, starting from the empty
registry state of a fresh activation. -/
def restoreAgents (live : List String) (fsSize : String → Option Nat)
    (persisted : List PersistedAgent) : RestoreResult :=
  restoreAgentsGo live fsSize persisted ⟨[], [], []⟩

/-- A freshly launched agent state, as `launchNewTerminal` builds it: every
tool collection empty, `fileOffset` 0, all flags false. -/
def exAgentFresh : AgentState :=
  { id := 1
    provider := "codex"
    terminalRef := some "Codex #1"
    projectDir := "/home/u/proj"
    jsonlFile := "/home/u/.codex/sessions/s.jsonl"
    fileOffset := 0
    lineBuffer := ""
    activeToolIds := []
    activeToolStatuses := []
    activeToolNames := []
    activeSubagentToolIds := []
    activeSubagentToolNames := []
    isWaiting := false
    permissionSent := false
    hadToolsInTurn := false }

/-- The four parsed lines of the spec's concrete Codex scenario: a turn
start, an ExecCommandBegin for tool `a1` running `ls -la`, the matching
ExecCommandEnd, and a turn end (fresh ids are irrelevant here since the
records carry their own id). -/
def c1Inputs : List (Option Record × String) :=
  [ (some { type := some "TurnStarted" }, "u1"),
    (some { type := some "ExecCommandBegin", id := some "a1",
            command := some "ls -la" }, "u2"),
    (some { type := some "ExecCommandEnd", id := some "a1" }, "u3"),
    (some { type := some "TurnEnded" }, "u4") ]

/-- The event order the spec's concrete scenario claims: status active,
tool start, delayed tool done, tools-clear, status waiting. -/
def c1ClaimedEvents : List Emission :=
  [ Emission.now (Event.agentStatus Status.active),
    Emission.now (Event.agentToolStart "a1" "Running: ls -la"),
    Emission.afterDelay (Event.agentToolDone "a1"),
    Emission.now Event.agentToolsClear,
    Emission.now (Event.agentStatus Status.waiting) ]

/-- The event order the code actually produces on the scenario: a second
status-active is posted by the tool start, and no tools-clear is posted at
turn end because the tool set is already empty there. -/
def c1ActualEvents : List Emission :=
  [ Emission.now (Event.agentStatus Status.active),
    Emission.now (Event.agentStatus Status.active),
    Emission.now (Event.agentToolStart "a1" "Running: ls -la"),
    Emission.afterDelay (Event.agentToolDone "a1"),
    Emission.now (Event.agentStatus Status.waiting) ]

/-- An agent mid-turn with a single open shell tool `a1`. -/
def exAgentOneShell : AgentState :=
  { exAgentFresh with
      activeToolIds := ["a1"]
      activeToolStatuses := [("a1", "Running: ls -la")]
      activeToolNames := [("a1", "shell")]
      hadToolsInTurn := true }

/-- A Cursor agent mid-turn with two open shell tools, `t1` started before
`t2`. -/
def exAgentTwoBash : AgentState :=
  { exAgentFresh with
      provider := "cursor"
      terminalRef := none
      activeToolIds := ["t1", "t2"]
      activeToolStatuses := [("t1", "Running: a"), ("t2", "Running: b")]
      activeToolNames := [("t1", "Bash"), ("t2", "Bash")]
      hadToolsInTurn := true }

/-- A persisted snapshot entry for a terminal-less (Cursor) agent. -/
def exPersistedCursor : PersistedAgent :=
  { id := 3
    provider := some "cursor"
    terminalName := "Cursor"
    jsonlFile := "/w/.cursor/panda-hooks/panda.jsonl"
    projectDir := "/w/.cursor/panda-hooks" }

/-- A filesystem in which the example transcript currently holds 42
bytes. -/
def exFsSize : String → Option Nat :=
  fun s => if s = "/w/.cursor/panda-hooks/panda.jsonl" then some 42 else none

/-- The agent state `restoreAgents` rehydrates from `exPersistedCursor`
under `exFsSize`: transients empty, `fileOffset` fast-forwarded to the
current 42-byte file size. -/
def exRestoredAgent : AgentState :=
  { id := 3
    provider := "cursor"
    terminalRef := none
    projectDir := "/w/.cursor/panda-hooks"
    jsonlFile := "/w/.cursor/panda-hooks/panda.jsonl"
    fileOffset := 42
    lineBuffer := ""
    activeToolIds := []
    activeToolStatuses := []
    activeToolNames := []
    activeSubagentToolIds := []
    activeSubagentToolNames := []
    isWaiting := false
    permissionSent := false
    hadToolsInTurn := false }

/-- A registry holding agent 1 with every watcher and timer armed for
it. -/
def exRegistry : Registry :=
  { agents := [(1, exAgentFresh)]
    fileWatchers := [1]
    pollingTimers := [1]
    waitingTimers := [1]
    permissionTimers := [1]
    jsonlPollTimers := [1] }

/-- The keyset-consistency invariant of the data model: the key sets of
`activeToolStatuses` and `activeToolNames` both equal the set
`activeToolIds`. -/
def keysetConsistent (a : AgentState) : Prop :=
  (a.activeToolStatuses.map Prod.fst).toFinset = a.activeToolIds.toFinset ∧
  (a.activeToolNames.map Prod.fst).toFinset = a.activeToolIds.toFinset

instance (a : AgentState) : Decidable (keysetConsistent a) := by
  unfold keysetConsistent; infer_instance

section CollectionLemmas

variable {κ α : Type}

theorem toFinset_setAdd [DecidableEq α] (s : List α) (x : α) :
    (setAdd s x).toFinset = insert x s.toFinset := by
  unfold setAdd
  split
  · rename_i hx
    ext y
    simp only [List.mem_toFinset, Finset.mem_insert]
    constructor
    · exact fun h => Or.inr h
    · rintro (rfl | h)
      · exact hx
      · exact h
  · ext y
    simp [or_comm]

theorem map_fst_mapSet_of_mem [DecidableEq κ] (m : List (κ × α)) (k : κ) (v : α)
    (h : k ∈ m.map Prod.fst) : (mapSet m k v).map Prod.fst = m.map Prod.fst := by
  unfold mapSet
  rw [if_pos h, List.map_map]
  apply List.map_congr_left
  intro p _
  by_cases hk : p.1 = k
  · simp [Function.comp, hk]
  · simp [Function.comp, hk]

theorem keys_mapSet [DecidableEq κ] (m : List (κ × α)) (k : κ) (v : α) :
    ((mapSet m k v).map Prod.fst).toFinset = insert k (m.map Prod.fst).toFinset := by
  by_cases h : k ∈ m.map Prod.fst
  · rw [map_fst_mapSet_of_mem m k v h,
      (Finset.insert_eq_self.mpr (List.mem_toFinset.mpr h))]
  · unfold mapSet
    rw [if_neg h]
    ext y
    simp [or_comm]

theorem toFinset_filter_ne [DecidableEq α] (s : List α) (x : α) :
    (s.filter (fun y => y ≠ x)).toFinset = s.toFinset.erase x := by
  ext y
  simp [List.mem_filter, Finset.mem_erase, and_comm]

theorem toFinset_setDelete [DecidableEq α] (s : List α) (x : α) :
    (setDelete s x).toFinset = s.toFinset.erase x := by
  unfold setDelete
  exact toFinset_filter_ne s x

theorem map_fst_mapDelete [DecidableEq κ] (m : List (κ × α)) (k : κ) :
    (mapDelete m k).map Prod.fst = (m.map Prod.fst).filter (fun x => x ≠ k) := by
  unfold mapDelete
  induction m with
  | nil => rfl
  | cons p rest ih =>
    by_cases h : p.1 = k
    · simpa [List.filter_cons, h] using ih
    · simpa [List.filter_cons, h] using ih

theorem keys_mapDelete [DecidableEq κ] (m : List (κ × α)) (k : κ) :
    ((mapDelete m k).map Prod.fst).toFinset = ((m.map Prod.fst).toFinset).erase k := by
  rw [map_fst_mapDelete]
  exact toFinset_filter_ne _ k

theorem mem_setDelete_self [DecidableEq α] (s : List α) (x : α) : x ∉ setDelete s x := by
  simp [setDelete]

theorem mapGet_mapDelete_self [DecidableEq κ] (m : List (κ × α)) (k : κ) :
    mapGet (mapDelete m k) k = none := by
  unfold mapGet mapDelete
  induction m with
  | nil => rfl
  | cons p rest ih =>
    by_cases h : p.1 = k
    · simp only [List.filter_cons, h]
      simpa using ih
    · simp only [List.filter_cons, List.find?_cons, h]
      simpa [h] using ih

theorem mem_values_mapSet [DecidableEq κ] (m : List (κ × α)) (k : κ) (v : α) (p : κ × α)
    (h : p ∈ mapSet m k v) : p.2 = v ∨ p ∈ m := by
  unfold mapSet at h
  split at h
  · obtain ⟨q, hq, heq⟩ := List.mem_map.mp h
    by_cases hk : q.1 = k
    · rw [if_pos hk] at heq
      left
      rw [← heq]
    · rw [if_neg hk] at heq
      right
      rw [← heq]
      exact hq
  · rcases List.mem_append.mp h with h' | h'
    · right
      exact h'
    · left
      simp only [List.mem_singleton] at h'
      rw [h']

theorem find?_append_cons (p : α → Bool) (pre : List α) (x : α)
    (post : List α) (hx : p x = true) (hpre : ∀ y ∈ pre, p y = false) :
    (pre ++ x :: post).find? p = some x := by
  induction pre with
  | nil => simp [List.find?_cons, hx]
  | cons a rest ih =>
    have ha : p a = false := hpre a (List.mem_cons_self a rest)
    simp only [List.cons_append, List.find?_cons, ha]
    exact ih (fun y hy => hpre y (List.mem_cons_of_mem a hy))

end CollectionLemmas

/-- C4: a line on which `JSON.parse` throws (modelled by a `none` parse
result), as well as a structurally unusable record (no `type` field, or an
empty `type` string), is silently discarded by both `processCodexLine` and
`processCursorLine`: the call returns normally with no events emitted, the
agent state and the timer maps unchanged, so a malformed line never halts
processing of subsequent lines. -/
theorem malformed_line_discarded (maxLen agentId : Nat) (freshId : String)
    (agent : AgentState) (timers : Timers) :
    processCodexLine maxLen agentId freshId none agent timers
      = (agent, timers, []) ∧
    processCursorLine maxLen agentId freshId none agent timers
      = (agent, timers, []) ∧
    (∀ wd i c e fp tn,
      processCodexLine maxLen agentId freshId
        (some { type := none, working_dir := wd, id := i, command := c,
                exec_id := e, file_path := fp, tool_name := tn })
        agent timers = (agent, timers, [])) ∧
    (∀ wd i c e fp tn,
      processCodexLine maxLen agentId freshId
        (some { type := some "", working_dir := wd, id := i, command := c,
                exec_id := e, file_path := fp, tool_name := tn })
        agent timers = (agent, timers, [])) ∧
    (∀ wd i c e fp tn,
      processCursorLine maxLen agentId freshId
        (some { type := none, working_dir := wd, id := i, command := c,
                exec_id := e, file_path := fp, tool_name := tn })
        agent timers = (agent, timers, [])) ∧
    (∀ wd i c e fp tn,
      processCursorLine maxLen agentId freshId
        (some { type := some "", working_dir := wd, id := i, command := c,
                exec_id := e, file_path := fp, tool_name := tn })
        agent timers = (agent, timers, [])) := by
  refine ⟨rfl, rfl, ?_, ?_, ?_, ?_⟩ <;> intro wd i c e fp tn <;> rfl

/-- C2: for every agent state satisfying the data model's keyset invariant,
after the parser processes a turn-end line (Codex `TurnEnded`; Cursor
`afterAgentResponse` or `stop`) the collections `activeToolIds`,
`activeToolStatuses` and `activeToolNames` are all empty, `isWaiting` is
true, `permissionSent` and `hadToolsInTurn` are false, and an `agentStatus`
event with status waiting is emitted. -/
theorem turn_end_resets_state (maxLen agentId : Nat) (freshId : String)
    (r : Record) (agent : AgentState) (timers : Timers)
    (hc : keysetConsistent agent) :
    (r.type = some "TurnEnded" →
      (let res := processCodexLine maxLen agentId freshId (some r) agent timers
       res.1.activeToolIds = [] ∧ res.1.activeToolStatuses = [] ∧
       res.1.activeToolNames = [] ∧ res.1.isWaiting = true ∧
       res.1.permissionSent = false ∧ res.1.hadToolsInTurn = false ∧
       Emission.now (Event.agentStatus Status.waiting) ∈ res.2.2)) ∧
    (r.type = some "afterAgentResponse" ∨ r.type = some "stop" →
      (let res := processCursorLine maxLen agentId freshId (some r) agent timers
       res.1.activeToolIds = [] ∧ res.1.activeToolStatuses = [] ∧
       res.1.activeToolNames = [] ∧ res.1.isWaiting = true ∧
       res.1.permissionSent = false ∧ res.1.hadToolsInTurn = false ∧
       Emission.now (Event.agentStatus Status.waiting) ∈ res.2.2)) := by
  obtain ⟨hs, hn⟩ := hc
  have hempty : agent.activeToolIds = [] →
      agent.activeToolStatuses = [] ∧ agent.activeToolNames = [] := by
    intro hids
    rw [hids] at hs hn
    simp only [List.toFinset_nil] at hs hn
    exact ⟨List.map_eq_nil_iff.mp (List.toFinset_eq_empty_iff _ |>.mp hs),
      List.map_eq_nil_iff.mp (List.toFinset_eq_empty_iff _ |>.mp hn)⟩
  constructor
  · intro ht
    simp only [processCodexLine, ht]
    by_cases hl : agent.activeToolIds.length > 0
    · simp [hl]
    · have hids : agent.activeToolIds = [] :=
        List.length_eq_zero.mp (Nat.eq_zero_of_not_pos hl)
      obtain ⟨h1, h2⟩ := hempty hids
      simp [hl, hids, h1, h2]
  · intro ht
    rcases ht with ht | ht <;>
    · simp only [processCursorLine, ht]
      by_cases hl : agent.activeToolIds.length > 0
      · simp [hl]
      · have hids : agent.activeToolIds = [] :=
          List.length_eq_zero.mp (Nat.eq_zero_of_not_pos hl)
        obtain ⟨h1, h2⟩ := hempty hids
        simp [hl, hids, h1, h2]

/-- Witness for C2: a Codex `TurnEnded` line on an agent with one open
shell tool empties the collections, sets the waiting flags, and posts the
waiting status. -/
theorem turn_end_resets_state_witness :
    keysetConsistent exAgentOneShell ∧
    (let res := processCodexLine 100 1 "u" (some { type := some "TurnEnded" })
      exAgentOneShell ⟨[], []⟩
     res.1.activeToolIds = [] ∧ res.1.activeToolStatuses = [] ∧
     res.1.activeToolNames = [] ∧ res.1.isWaiting = true ∧
     res.1.permissionSent = false ∧ res.1.hadToolsInTurn = false ∧
     Emission.now (Event.agentStatus Status.waiting) ∈ res.2.2) :=
  ⟨by decide,
    (turn_end_resets_state 100 1 "u" { type := some "TurnEnded" }
      exAgentOneShell ⟨[], []⟩ (by decide)).1 rfl⟩

/-- C6 counterexample: after a first Codex `ApprovalRequest` line has set
`permissionSent` to true, a second `ApprovalRequest` line with no
intervening turn boundary still emits an `agentToolPermission` event — the
branch posts unconditionally, so the claim that no second event is emitted
is false. -/
theorem approval_request_counterexample :
    (processCodexLine 100 1 "u1" (some { type := some "ApprovalRequest" })
      exAgentFresh ⟨[], []⟩).1.permissionSent = true ∧
    (processCodexLine 100 1 "u2" (some { type := some "ApprovalRequest" })
      (processCodexLine 100 1 "u1" (some { type := some "ApprovalRequest" })
        exAgentFresh ⟨[], []⟩).1
      (processCodexLine 100 1 "u1" (some { type := some "ApprovalRequest" })
        exAgentFresh ⟨[], []⟩).2.1).2.2
      = [Emission.now Event.agentToolPermission] :=
  ⟨rfl, rfl⟩

/-- C6 amended: processing a Codex `ApprovalRequest` line sets
`permissionSent` to true and emits exactly one `agentToolPermission` event,
for every agent state — including one whose `permissionSent` is already
true, so a repeated explicit `ApprovalRequest` line does emit again (the
`permissionSent` flag does not gate this branch). -/
theorem approval_request_always_emits (maxLen agentId : Nat)
    (freshId : String) (r : Record) (agent : AgentState) (timers : Timers)
    (ht : r.type = some "ApprovalRequest") :
    processCodexLine maxLen agentId freshId (some r) agent timers
      = ({ agent with permissionSent := true }, timers,
         [Emission.now Event.agentToolPermission]) := by
  simp [processCodexLine, ht]

/-- Witness for C6 amended: an agent whose `permissionSent` flag is already
set still gets the event emitted. -/
theorem approval_request_always_emits_witness :
    processCodexLine 100 1 "u"
        (some { type := some "ApprovalRequest" })
        { exAgentFresh with permissionSent := true } ⟨[], []⟩
      = ({ exAgentFresh with permissionSent := true }, ⟨[], []⟩,
         [Emission.now Event.agentToolPermission]) :=
  approval_request_always_emits 100 1 "u" { type := some "ApprovalRequest" }
    { exAgentFresh with permissionSent := true } ⟨[], []⟩ rfl

/-- C10 counterexample: a Cursor `afterFileEdit` line on an agent with no
open tool at all (hence no open Read tool) does emit the synthetic
start/done pair, but the handler's trailing no-tools-remain check resets
`hadToolsInTurn` back to false, so the claim that processing leaves
`hadToolsInTurn` set to true is false. -/
theorem after_file_edit_counterexample :
    (processCursorLine 100 1 "cx1"
        (some { type := some "afterFileEdit", file_path := some "a/b.txt" })
        { exAgentFresh with provider := "cursor", terminalRef := none }
        ⟨[], []⟩).1.hadToolsInTurn = false ∧
    (processCursorLine 100 1 "cx1"
        (some { type := some "afterFileEdit", file_path := some "a/b.txt" })
        { exAgentFresh with provider := "cursor", terminalRef := none }
        ⟨[], []⟩).2.2
      = [Emission.now (Event.agentToolStart "cx1" "Editing b.txt"),
         Emission.afterDelay (Event.agentToolDone "cx1")] :=
  ⟨rfl, by decide⟩

/-- C10 amended: on an agent state with no open tool of kind Read, a Cursor
`afterFileEdit` line emits a synthetic pair — one `agentToolStart` with the
freshly generated id and status `Editing <basename>`, then one
`agentToolDone` with the same id after the fixed display delay — and leaves
the three tool collections unchanged; `hadToolsInTurn` is set to true but
the trailing no-tools-remain check resets it, so it ends true exactly when
some other tool is still open (false when `activeToolIds` is empty). -/
theorem after_file_edit_synthetic (maxLen agentId : Nat) (freshId : String)
    (r : Record) (agent : AgentState) (timers : Timers)
    (ht : r.type = some "afterFileEdit")
    (hm : agent.activeToolNames.find? (fun q => q.2 = "Read") = none) :
    let res := processCursorLine maxLen agentId freshId (some r) agent timers
    res.1.activeToolIds = agent.activeToolIds ∧
    res.1.activeToolStatuses = agent.activeToolStatuses ∧
    res.1.activeToolNames = agent.activeToolNames ∧
    res.2.2 = [Emission.now (Event.agentToolStart freshId
                 ("Editing " ++ basename (r.file_path.getD ""))),
               Emission.afterDelay (Event.agentToolDone freshId)] ∧
    (agent.activeToolIds = [] → res.1.hadToolsInTurn = false) ∧
    (agent.activeToolIds ≠ [] → res.1.hadToolsInTurn = true) := by
  by_cases hids : agent.activeToolIds = []
  · simp [processCursorLine, ht, hm, formatCursorStatus, hids]
  · have hl : agent.activeToolIds.length ≠ 0 :=
      fun h => hids (List.length_eq_zero.mp h)
    simp [processCursorLine, ht, hm, formatCursorStatus, hids, hl]

/-- Witness for C10 amended: an `afterFileEdit` with two unrelated Bash
tools still open emits the synthetic pair, leaves the collections alone,
and keeps `hadToolsInTurn` true. -/
theorem after_file_edit_synthetic_witness :
    let res := processCursorLine 100 1 "cx1"
      (some { type := some "afterFileEdit", file_path := some "src/main.rs" })
      exAgentTwoBash ⟨[], []⟩
    res.1.activeToolIds = exAgentTwoBash.activeToolIds ∧
    res.1.activeToolStatuses = exAgentTwoBash.activeToolStatuses ∧
    res.1.activeToolNames = exAgentTwoBash.activeToolNames ∧
    res.2.2 = [Emission.now (Event.agentToolStart "cx1"
                 ("Editing " ++ basename
                   ((some "src/main.rs" : Option String).getD ""))),
               Emission.afterDelay (Event.agentToolDone "cx1")] ∧
    (exAgentTwoBash.activeToolIds = [] → res.1.hadToolsInTurn = false) ∧
    (exAgentTwoBash.activeToolIds ≠ [] → res.1.hadToolsInTurn = true) :=
  after_file_edit_synthetic 100 1 "cx1"
    { type := some "afterFileEdit", file_path := some "src/main.rs" }
    exAgentTwoBash ⟨[], []⟩ rfl (by decide)

/-- C9 counterexample: an agent mid-turn with one open shell tool and
`hadToolsInTurn` true processes the tool-end line of its last open tool,
and `hadToolsInTurn` comes out false — not still true as claimed — because
the handler resets it when no tool remains active. -/
theorem had_tools_counterexample :
    exAgentOneShell.hadToolsInTurn = true ∧
    (processCodexLine 100 1 "u"
        (some { type := some "ExecCommandEnd", id := some "a1" })
        exAgentOneShell ⟨[], []⟩).1.activeToolIds = [] ∧
    (processCodexLine 100 1 "u"
        (some { type := some "ExecCommandEnd", id := some "a1" })
        exAgentOneShell ⟨[], []⟩).1.hadToolsInTurn = false :=
  ⟨rfl, rfl, rfl⟩

/-- C9 amended: `hadToolsInTurn` is set by every tool-start line and is
preserved by a tool-end line only while some tool remains open; the
tool-end line that closes the last open tool resets `hadToolsInTurn` to
false (the flag tracks "a tool is currently open", not "any tool ran this
turn"). -/
theorem had_tools_tracks_open_tools (maxLen agentId : Nat)
    (freshId : String) (r : Record) (agent : AgentState) (timers : Timers) :
    (r.type = some "ExecCommandBegin" →
      (processCodexLine maxLen agentId freshId (some r) agent
        timers).1.hadToolsInTurn = true) ∧
    (r.type = some "ExecCommandEnd" →
      (let res := processCodexLine maxLen agentId freshId (some r) agent timers
       (res.1.activeToolIds = [] → res.1.hadToolsInTurn = false) ∧
       (res.1.activeToolIds ≠ [] →
         res.1.hadToolsInTurn = agent.hadToolsInTurn))) ∧
    ((r.type = some "beforeShellExecution" ∨ r.type = some "beforeReadFile" ∨
        r.type = some "beforeMCPExecution") →
      (processCursorLine maxLen agentId freshId (some r) agent
        timers).1.hadToolsInTurn = true) ∧
    (r.type = some "afterShellExecution" →
      ∀ x, agent.activeToolNames.find? (fun q => q.2 = "Bash") = some x →
      (let res := processCursorLine maxLen agentId freshId (some r) agent timers
       (res.1.activeToolIds = [] → res.1.hadToolsInTurn = false) ∧
       (res.1.activeToolIds ≠ [] →
         res.1.hadToolsInTurn = agent.hadToolsInTurn))) ∧
    (r.type = some "afterMCPExecution" →
      ∀ x, agent.activeToolNames.find? (fun q => q.2 = "MCP") = some x →
      (let res := processCursorLine maxLen agentId freshId (some r) agent timers
       (res.1.activeToolIds = [] → res.1.hadToolsInTurn = false) ∧
       (res.1.activeToolIds ≠ [] →
         res.1.hadToolsInTurn = agent.hadToolsInTurn))) ∧
    (r.type = some "afterFileEdit" →
      ∀ x, agent.activeToolNames.find? (fun q => q.2 = "Read") = some x →
      (let res := processCursorLine maxLen agentId freshId (some r) agent timers
       (res.1.activeToolIds = [] → res.1.hadToolsInTurn = false) ∧
       (res.1.activeToolIds ≠ [] →
         res.1.hadToolsInTurn = agent.hadToolsInTurn))) := by
  refine ⟨?_, ?_, ?_, ?_, ?_, ?_⟩
  · intro ht
    simp [processCodexLine, ht]
  · intro ht
    by_cases hc : truthy r.id = true ∧ r.id.getD "" ∈ agent.activeToolIds
    · by_cases hdel : setDelete agent.activeToolIds (r.id.getD "") = []
      · simp [processCodexLine, ht, hc.1, hc.2, hdel]
      · have hlen : (setDelete agent.activeToolIds (r.id.getD "")).length ≠ 0 :=
          fun h => hdel (List.length_eq_zero.mp h)
        simp [processCodexLine, ht, hc.1, hc.2, hdel, hlen]
    · by_cases hids : agent.activeToolIds = []
      · simp [processCodexLine, ht, hc, hids]
      · have hlen : agent.activeToolIds.length ≠ 0 :=
          fun h => hids (List.length_eq_zero.mp h)
        simp [processCodexLine, ht, hc, hids, hlen]
  · intro ht
    rcases ht with ht | ht | ht <;> simp [processCursorLine, ht]
  · intro ht x hm
    by_cases hdel : setDelete agent.activeToolIds x.1 = []
    · simp [processCursorLine, ht, hm, hdel]
    · have hlen : (setDelete agent.activeToolIds x.1).length ≠ 0 :=
        fun h => hdel (List.length_eq_zero.mp h)
      simp [processCursorLine, ht, hm, hdel, hlen]
  · intro ht x hm
    by_cases hdel : setDelete agent.activeToolIds x.1 = []
    · simp [processCursorLine, ht, hm, hdel]
    · have hlen : (setDelete agent.activeToolIds x.1).length ≠ 0 :=
        fun h => hdel (List.length_eq_zero.mp h)
      simp [processCursorLine, ht, hm, hdel, hlen]
  · intro ht x hm
    by_cases hdel : setDelete agent.activeToolIds x.1 = []
    · simp [processCursorLine, ht, hm, hdel]
    · have hlen : (setDelete agent.activeToolIds x.1).length ≠ 0 :=
        fun h => hdel (List.length_eq_zero.mp h)
      simp [processCursorLine, ht, hm, hdel, hlen]

/-- Witness for C9 amended: the tool-end of the single open shell tool
leaves an empty tool set, and the amended theorem then forces
`hadToolsInTurn` to be false there. -/
theorem had_tools_tracks_open_tools_witness :
    let res := processCodexLine 100 1 "u"
      (some { type := some "ExecCommandEnd", id := some "a1" })
      exAgentOneShell ⟨[], []⟩
    (res.1.activeToolIds = [] → res.1.hadToolsInTurn = false) ∧
    (res.1.activeToolIds ≠ [] →
      res.1.hadToolsInTurn = exAgentOneShell.hadToolsInTurn) :=
  (had_tools_tracks_open_tools 100 1 "u"
    { type := some "ExecCommandEnd", id := some "a1" }
    exAgentOneShell ⟨[], []⟩).2.1 rfl

/-- C1 counterexample: on the spec's four-line Codex scenario, starting
from a fresh agent with no active tools, the parser posts a second
status-active event (from the tool-start handler) and posts no tools-clear
event at all (the tool set is already empty when the turn ends), so the
emitted sequence differs from the claimed one. -/
theorem codex_scenario_counterexample :
    (processCodexLines 100 1 c1Inputs exAgentFresh ⟨[], []⟩).2.2
      = c1ActualEvents ∧
    c1ActualEvents ≠ c1ClaimedEvents ∧
    (processCodexLines 100 1 c1Inputs exAgentFresh ⟨[], []⟩).2.2.count
      (Emission.now (Event.agentStatus Status.active)) = 2 ∧
    Emission.now Event.agentToolsClear ∉
      (processCodexLines 100 1 c1Inputs exAgentFresh ⟨[], []⟩).2.2 :=
  ⟨by decide, by decide, by decide, by decide⟩

/-- C1 amended: for any agent state with no active tools (and any display
truncation length of at least the command's 6 characters), the four-line
scenario emits status active, a second status active together with
agentToolStart(a1, "Running: ls -la") on the tool start, agentToolDone(a1)
after the display delay, and status waiting — with no agentToolsClear,
since the tool set is already empty at turn end. -/
theorem codex_scenario_events (maxLen agentId : Nat) (agent : AgentState)
    (timers : Timers) (hids : agent.activeToolIds = []) (hlen : 6 ≤ maxLen) :
    (processCodexLines maxLen agentId c1Inputs agent timers).2.2
      = c1ActualEvents := by
  have hl : "ls -la".length = 6 := rfl
  have h6 : ¬ ("ls -la".length > maxLen) := by omega
  simp [processCodexLines, processCodexLine, clearAgentActivity,
    formatCodexToolStatus, setAdd, setDelete, mapSet, mapDelete, truthy,
    hids, h6, c1Inputs, c1ActualEvents, cancelWaitingTimer,
    cancelPermissionTimer, startPermissionTimer]

/-- Witness for C1 amended: the scenario run from the fresh example agent
with truncation length 100 produces exactly the amended event list. -/
theorem codex_scenario_events_witness :
    (processCodexLines 100 1 c1Inputs exAgentFresh ⟨[], []⟩).2.2
      = c1ActualEvents :=
  codex_scenario_events 100 1 exAgentFresh ⟨[], []⟩ rfl (by decide)

/-- C5: a Cursor tool-end line (`afterShellExecution` matching kind Bash,
`afterFileEdit` matching kind Read, `afterMCPExecution` matching kind MCP)
on an agent whose insertion-ordered `activeToolNames` contains an entry of
the matching kind — `tid` being the oldest such entry, i.e. every earlier
entry has a different kind — removes exactly `tid` from all three tool
collections and emits exactly one `agentToolDone` carrying `tid`, scheduled
after the fixed display delay. -/
theorem cursor_tool_end_oldest_match (maxLen agentId : Nat)
    (freshId : String) (r : Record) (agent : AgentState) (timers : Timers)
    (t k tid : String) (pre post : List (String × String))
    (ht : r.type = some t)
    (hcase : (t, k) ∈ [("afterShellExecution", "Bash"),
      ("afterFileEdit", "Read"), ("afterMCPExecution", "MCP")])
    (hnames : agent.activeToolNames = pre ++ (tid, k) :: post)
    (hpre : ∀ q ∈ pre, q.2 ≠ k) :
    let res := processCursorLine maxLen agentId freshId (some r) agent timers
    res.2.2 = [Emission.afterDelay (Event.agentToolDone tid)] ∧
    res.1.activeToolIds = agent.activeToolIds.filter (fun x => x ≠ tid) ∧
    res.1.activeToolStatuses
      = agent.activeToolStatuses.filter (fun q => q.1 ≠ tid) ∧
    res.1.activeToolNames
      = agent.activeToolNames.filter (fun q => q.1 ≠ tid) := by
  have hfind : agent.activeToolNames.find? (fun q => q.2 = k)
      = some (tid, k) := by
    rw [hnames]
    refine find?_append_cons _ pre (tid, k) post (by simp) ?_
    intro y hy
    simpa using hpre y hy
  simp only [List.mem_cons, List.mem_singleton, Prod.mk.injEq,
    List.not_mem_nil, or_false] at hcase
  rcases hcase with ⟨rfl, rfl⟩ | ⟨rfl, rfl⟩ | ⟨rfl, rfl⟩ <;>
    simp [processCursorLine, ht, hfind, setDelete, mapDelete,
      apply_ite AgentState.activeToolIds,
      apply_ite AgentState.activeToolStatuses,
      apply_ite AgentState.activeToolNames]

/-- Witness for C5: with two open Bash tools `t1` (older) and `t2`, an
`afterShellExecution` removes `t1` and emits the delayed done for `t1`. -/
theorem cursor_tool_end_oldest_match_witness :
    let res := processCursorLine 100 1 "f"
      (some { type := some "afterShellExecution" }) exAgentTwoBash ⟨[], []⟩
    res.2.2 = [Emission.afterDelay (Event.agentToolDone "t1")] ∧
    res.1.activeToolIds
      = exAgentTwoBash.activeToolIds.filter (fun x => x ≠ "t1") ∧
    res.1.activeToolStatuses
      = exAgentTwoBash.activeToolStatuses.filter (fun q => q.1 ≠ "t1") ∧
    res.1.activeToolNames
      = exAgentTwoBash.activeToolNames.filter (fun q => q.1 ≠ "t1") :=
  cursor_tool_end_oldest_match 100 1 "f"
    { type := some "afterShellExecution" } exAgentTwoBash ⟨[], []⟩
    "afterShellExecution" "Bash" "t1" [] [("t2", "Bash")]
    rfl (by decide) (by decide) (by decide)

/-- Every agent value the restore loop stores satisfies any property that
holds of every `rehydrate` output, provided the accumulated map already
satisfies it. -/
theorem restoreAgentsGo_mem (live : List String)
    (fsSize : String → Option Nat) (P : AgentState → Prop)
    (hre : ∀ p a, rehydrate live fsSize p = some a → P a) :
    ∀ (l : List PersistedAgent) (acc : RestoreResult),
      (∀ pr ∈ acc.agents, P pr.2) →
      ∀ pr ∈ (restoreAgentsGo live fsSize l acc).agents, P pr.2 := by
  intro l
  induction l with
  | nil => intro acc hacc pr hpr; exact hacc pr hpr
  | cons p rest ih =>
    intro acc hacc pr hpr
    rw [restoreAgentsGo] at hpr
    cases hr : rehydrate live fsSize p with
    | none =>
      rw [hr] at hpr
      exact ih _ hacc pr hpr
    | some a =>
      rw [hr] at hpr
      refine ih _ ?_ pr hpr
      intro q hq
      rcases mem_values_mapSet _ _ _ q hq with h | h
      · rw [h]
        exact hre p a hr
      · exact hacc q h

/-- C7: `restoreAgents` restores terminal-needing entries exactly when a
live terminal with the persisted name exists and terminal-less entries
unconditionally; every rehydrated agent state has all transient tracking
empty (tool collections, `lineBuffer`, the three flags) and, when the
transcript file exists, `fileOffset` equal to the file's current size, so
no previously written transcript line is re-parsed after a restart; and
every agent stored by the restore loop satisfies the same resets. -/
theorem restore_resets_transients (live : List String)
    (fsSize : String → Option Nat) (persisted : List PersistedAgent) :
    (∀ p : PersistedAgent, needsTerminal (persistedProviderId p) = false →
      (rehydrate live fsSize p).isSome = true) ∧
    (∀ p : PersistedAgent, p.terminalName ∈ live →
      (rehydrate live fsSize p).isSome = true) ∧
    (∀ (p : PersistedAgent) (a : AgentState),
      rehydrate live fsSize p = some a →
      a.jsonlFile = p.jsonlFile ∧
      a.activeToolIds = [] ∧ a.activeToolStatuses = [] ∧
      a.activeToolNames = [] ∧ a.activeSubagentToolIds = [] ∧
      a.activeSubagentToolNames = [] ∧ a.lineBuffer = "" ∧
      a.isWaiting = false ∧ a.permissionSent = false ∧
      a.hadToolsInTurn = false ∧
      (∀ n, fsSize a.jsonlFile = some n → a.fileOffset = n)) ∧
    (∀ pr ∈ (restoreAgents live fsSize persisted).agents,
      pr.2.activeToolIds = [] ∧ pr.2.lineBuffer = "" ∧
      pr.2.isWaiting = false ∧ pr.2.permissionSent = false ∧
      pr.2.hadToolsInTurn = false ∧
      (∀ n, fsSize pr.2.jsonlFile = some n → pr.2.fileOffset = n)) := by
  have key : ∀ (p : PersistedAgent) (a : AgentState),
      rehydrate live fsSize p = some a →
      a.jsonlFile = p.jsonlFile ∧
      a.activeToolIds = [] ∧ a.activeToolStatuses = [] ∧
      a.activeToolNames = [] ∧ a.activeSubagentToolIds = [] ∧
      a.activeSubagentToolNames = [] ∧ a.lineBuffer = "" ∧
      a.isWaiting = false ∧ a.permissionSent = false ∧
      a.hadToolsInTurn = false ∧
      (∀ n, fsSize a.jsonlFile = some n → a.fileOffset = n) := by
    intro p a h
    unfold rehydrate at h
    by_cases hc : needsTerminal (persistedProviderId p) = true ∧
        p.terminalName ∉ live
    · rw [if_pos hc] at h
      cases h
    · rw [if_neg hc] at h
      cases hs : fsSize p.jsonlFile <;> simp only [hs] at h <;>
        (injection h with h; subst h; simp [hs])
  refine ⟨?_, ?_, key, ?_⟩
  · intro p hp
    unfold rehydrate
    rw [if_neg (by simp [hp])]
    cases fsSize p.jsonlFile <;> simp
  · intro p hp
    unfold rehydrate
    rw [if_neg (by simp [hp])]
    cases fsSize p.jsonlFile <;> simp
  · unfold restoreAgents
    refine restoreAgentsGo_mem live fsSize
      (fun a => a.activeToolIds = [] ∧ a.lineBuffer = "" ∧
        a.isWaiting = false ∧ a.permissionSent = false ∧
        a.hadToolsInTurn = false ∧
        (∀ n, fsSize a.jsonlFile = some n → a.fileOffset = n))
      ?_ persisted ⟨[], [], []⟩ (by intro pr hpr; cases hpr)
    intro p a h
    obtain ⟨hj, h1, _, _, _, _, h7, h8, h9, h10, h11⟩ := key p a h
    exact ⟨h1, h7, h8, h9, h10, h11⟩

/-- Witness for C7: the terminal-less example snapshot rehydrates to the
explicit reset agent state with `fileOffset` 42, the current file size. -/
theorem restore_resets_transients_witness :
    rehydrate [] exFsSize exPersistedCursor = some exRestoredAgent ∧
    exRestoredAgent.activeToolIds = [] ∧
    exRestoredAgent.isWaiting = false ∧
    exRestoredAgent.fileOffset = 42 := by
  have h := (restore_resets_transients [] exFsSize [exPersistedCursor]).2.2.1
    exPersistedCursor exRestoredAgent (by decide)
  exact ⟨by decide, h.2.1, h.2.2.2.2.2.2.2.1,
    h.2.2.2.2.2.2.2.2.2.2 42 (by decide)⟩

/-- C8 counterexample: `removeAgent` returns before touching any timer map
when the id is absent from the agents map, so calling it on a registry
whose `waitingTimers` still holds id 7 (with no agent 7 registered) leaves
that timer entry in place — the id is not absent from every timer map
after the call, refuting the claim for such states. -/
theorem removeAgent_counterexample :
    removeAgent 7 ⟨[], [], [], [7], [], []⟩ = ⟨[], [], [], [7], [], []⟩ ∧
    7 ∈ (removeAgent 7 (⟨[], [], [], [7], [], []⟩ : Registry)).waitingTimers :=
  ⟨rfl, by decide⟩

/-- C8 amended: `removeAgent` is idempotent for every registry state; when
the id is absent from the agents map the call is a complete no-op (which
can leave stale timer entries for that id untouched), and when the id is
present the call removes it from the agents map and from every
watcher/timer map, cancelling its timers. -/
theorem removeAgent_amended (r : Registry) (agentId : Nat) :
    removeAgent agentId (removeAgent agentId r) = removeAgent agentId r ∧
    (mapGet r.agents agentId = none → removeAgent agentId r = r) ∧
    (∀ a, mapGet r.agents agentId = some a →
      mapGet (removeAgent agentId r).agents agentId = none ∧
      agentId ∉ (removeAgent agentId r).fileWatchers ∧
      agentId ∉ (removeAgent agentId r).pollingTimers ∧
      agentId ∉ (removeAgent agentId r).waitingTimers ∧
      agentId ∉ (removeAgent agentId r).permissionTimers ∧
      agentId ∉ (removeAgent agentId r).jsonlPollTimers) := by
  refine ⟨?_, ?_, ?_⟩
  · cases h : mapGet r.agents agentId with
    | none => simp [removeAgent, h]
    | some a => simp [removeAgent, h, mapGet_mapDelete_self]
  · intro h
    simp [removeAgent, h]
  · intro a h
    simp [removeAgent, h, mapGet_mapDelete_self, cancelWaitingTimer,
      cancelPermissionTimer, mem_setDelete_self, setDelete]

/-- Witness for C8 amended: on a registry holding agent 1 with every
timer armed, one removal empties every map of id 1 and a second removal
changes nothing. -/
theorem removeAgent_amended_witness :
    removeAgent 1 (removeAgent 1 exRegistry) = removeAgent 1 exRegistry ∧
    (mapGet (removeAgent 1 exRegistry).agents 1 = none ∧
      1 ∉ (removeAgent 1 exRegistry).fileWatchers ∧
      1 ∉ (removeAgent 1 exRegistry).pollingTimers ∧
      1 ∉ (removeAgent 1 exRegistry).waitingTimers ∧
      1 ∉ (removeAgent 1 exRegistry).permissionTimers ∧
      1 ∉ (removeAgent 1 exRegistry).jsonlPollTimers) :=
  ⟨(removeAgent_amended exRegistry 1).1,
    (removeAgent_amended exRegistry 1).2.2 exAgentFresh (by decide)⟩

/-- The Codex parser preserves the keyset-consistency of the three tool
collections on every input line. -/
theorem keyset_processCodexLine (maxLen agentId : Nat) (freshId : String)
    (parsed : Option Record) (agent : AgentState) (timers : Timers)
    (hc : keysetConsistent agent) :
    keysetConsistent
      (processCodexLine maxLen agentId freshId parsed agent timers).1 := by
  obtain ⟨h1, h2⟩ := hc
  cases parsed with
  | none => exact ⟨h1, h2⟩
  | some r =>
    cases ht : r.type with
    | none =>
      simp only [processCodexLine, ht]
      exact ⟨h1, h2⟩
    | some t =>
      simp only [processCodexLine, ht]
      by_cases h0 : t = ""
      · simp [h0]
        exact ⟨h1, h2⟩
      by_cases hta : t = "TurnStarted"
      · by_cases hl : agent.activeToolIds.length > 0
        · simp [hta, hl, clearAgentActivity, keysetConsistent]
        · simp [hta, hl, clearAgentActivity, keysetConsistent, h1, h2]
      by_cases htb : t = "TurnEnded"
      · by_cases hl : agent.activeToolIds.length > 0
        · simp [htb, hl, keysetConsistent]
        · simp [htb, hl, keysetConsistent, h1, h2]
      by_cases htc : t = "ExecCommandBegin"
      · simp [htc, keysetConsistent, keys_mapSet, toFinset_setAdd, h1, h2]
      by_cases htd : t = "ExecCommandEnd"
      · by_cases hcnd : truthy r.id = true ∧
            r.id.getD "" ∈ agent.activeToolIds
        · simp [htd, hcnd.1, hcnd.2, keysetConsistent, keys_mapDelete,
            toFinset_setDelete, toFinset_filter_ne, setDelete, h1, h2,
            Finset.filter_ne',
            apply_ite AgentState.activeToolIds,
            apply_ite AgentState.activeToolStatuses,
            apply_ite AgentState.activeToolNames]
        · simp [htd, hcnd, keysetConsistent, h1, h2,
            apply_ite AgentState.activeToolIds,
            apply_ite AgentState.activeToolStatuses,
            apply_ite AgentState.activeToolNames]
      by_cases hte : t = "ExecOutputDelta"
      · by_cases hcnd : truthy r.exec_id = true ∧
            r.exec_id.getD "" ∈ agent.activeToolIds
        · simp [hte, hcnd.1, hcnd.2, keysetConsistent, h1, h2]
        · simp [hte, hcnd, keysetConsistent, h1, h2]
      by_cases htf : t = "ApprovalRequest"
      · simp [htf, keysetConsistent, h1, h2]
      by_cases htg : t = "AgentMessageDelta"
      · by_cases hh : agent.hadToolsInTurn
        · simp [htg, hh, keysetConsistent, h1, h2]
        · simp [htg, hh, keysetConsistent, h1, h2]
      by_cases hth : t = "UserMessage"
      · by_cases hl : agent.activeToolIds.length > 0
        · simp [hth, hl, clearAgentActivity, keysetConsistent]
        · simp [hth, hl, clearAgentActivity, keysetConsistent, h1, h2]
      simp [h0, hta, htb, htc, htd, hte, htf, htg, hth]
      exact ⟨h1, h2⟩

/-- The Cursor parser preserves the keyset-consistency of the three tool
collections on every input line. -/
theorem keyset_processCursorLine (maxLen agentId : Nat) (freshId : String)
    (parsed : Option Record) (agent : AgentState) (timers : Timers)
    (hc : keysetConsistent agent) :
    keysetConsistent
      (processCursorLine maxLen agentId freshId parsed agent timers).1 := by
  obtain ⟨h1, h2⟩ := hc
  cases parsed with
  | none => exact ⟨h1, h2⟩
  | some r =>
    cases ht : r.type with
    | none =>
      simp only [processCursorLine, ht]
      exact ⟨h1, h2⟩
    | some t =>
      simp only [processCursorLine, ht]
      by_cases h0 : t = ""
      · simp [h0]
        exact ⟨h1, h2⟩
      by_cases hta : t = "beforeSubmitPrompt"
      · by_cases hl : agent.activeToolIds.length > 0
        · simp [hta, hl, clearAgentActivity, keysetConsistent]
        · simp [hta, hl, clearAgentActivity, keysetConsistent, h1, h2]
      by_cases htb : t = "afterAgentResponse" ∨ t = "stop"
      · rcases htb with htb | htb <;>
        · by_cases hl : agent.activeToolIds.length > 0
          · simp [htb, hl, keysetConsistent]
          · simp [htb, hl, keysetConsistent, h1, h2]
      by_cases htc : t = "beforeShellExecution" ∨ t = "beforeReadFile" ∨
          t = "beforeMCPExecution"
      · rcases htc with htc | htc | htc <;>
          simp [htc, keysetConsistent, keys_mapSet, toFinset_setAdd, h1, h2]
      by_cases htd : t = "afterShellExecution" ∨ t = "afterFileEdit" ∨
          t = "afterMCPExecution"
      · rcases htd with htd | htd | htd
        · subst htd
          cases hm : agent.activeToolNames.find? (fun q => q.2 = "Bash") with
          | some x =>
            simp [hm, keysetConsistent, keys_mapDelete, toFinset_setDelete,
              toFinset_filter_ne, setDelete, Finset.filter_ne', h1, h2,
              apply_ite AgentState.activeToolIds,
              apply_ite AgentState.activeToolStatuses,
              apply_ite AgentState.activeToolNames]
          | none =>
            simp [hm, keysetConsistent, h1, h2,
              apply_ite AgentState.activeToolIds,
              apply_ite AgentState.activeToolStatuses,
              apply_ite AgentState.activeToolNames]
        · subst htd
          cases hm : agent.activeToolNames.find? (fun q => q.2 = "Read") with
          | some x =>
            simp [hm, keysetConsistent, keys_mapDelete, toFinset_setDelete,
              toFinset_filter_ne, setDelete, Finset.filter_ne', h1, h2,
              apply_ite AgentState.activeToolIds,
              apply_ite AgentState.activeToolStatuses,
              apply_ite AgentState.activeToolNames]
          | none =>
            simp [hm, keysetConsistent, h1, h2,
              apply_ite AgentState.activeToolIds,
              apply_ite AgentState.activeToolStatuses,
              apply_ite AgentState.activeToolNames]
        · subst htd
          cases hm : agent.activeToolNames.find? (fun q => q.2 = "MCP") with
          | some x =>
            simp [hm, keysetConsistent, keys_mapDelete, toFinset_setDelete,
              toFinset_filter_ne, setDelete, Finset.filter_ne', h1, h2,
              apply_ite AgentState.activeToolIds,
              apply_ite AgentState.activeToolStatuses,
              apply_ite AgentState.activeToolNames]
          | none =>
            simp [hm, keysetConsistent, h1, h2,
              apply_ite AgentState.activeToolIds,
              apply_ite AgentState.activeToolStatuses,
              apply_ite AgentState.activeToolNames]
      simp [h0, hta, htb, htc, htd]
      exact ⟨h1, h2⟩

/-- C3: for every agent state in which the key sets of
`activeToolStatuses` and `activeToolNames` both equal `activeToolIds`,
processing any input line with the Codex or Cursor parser yields a state in
which the three key sets are again equal — entries are added, removed and
cleared only together. -/
theorem keyset_invariant_preserved (maxLen agentId : Nat) (freshId : String)
    (parsed : Option Record) (agent : AgentState) (timers : Timers)
    (hc : keysetConsistent agent) :
    keysetConsistent
      (processCodexLine maxLen agentId freshId parsed agent timers).1 ∧
    keysetConsistent
      (processCursorLine maxLen agentId freshId parsed agent timers).1 :=
  ⟨keyset_processCodexLine maxLen agentId freshId parsed agent timers hc,
   keyset_processCursorLine maxLen agentId freshId parsed agent timers hc⟩

/-- Witness for C3: the invariant holds again after an
`afterShellExecution` line on an agent with two consistent open tools. -/
theorem keyset_invariant_preserved_witness :
    keysetConsistent
      (processCodexLine 100 1 "w" (some { type := some "afterShellExecution" })
        exAgentTwoBash ⟨[], []⟩).1 ∧
    keysetConsistent
      (processCursorLine 100 1 "w" (some { type := some "afterShellExecution" })
        exAgentTwoBash ⟨[], []⟩).1 :=
  keyset_invariant_preserved 100 1 "w"
    (some { type := some "afterShellExecution" }) exAgentTwoBash ⟨[], []⟩
    (by decide)

end PandaAgents
